/-
Verification of the fb macro of flexi_func_declarative (src/lib.rs).

The macro is a macro_rules rewriter with six rules, tried top to bottom:

  1. (async, $fn_name:ident, ($($p:ident : $t:ty),*), -> $r:ty, $body:block)
       => async fn $fn_name($($p : $t),*) -> $r $body
  2. (sync,  $fn_name:ident, ($($p:ident : $t:ty),*), -> $r:ty, $body:block)
       => fn $fn_name($($p : $t),*) -> $r $body
  3. (async, closure, $body:block) => || async move $body
  4. (sync,  closure, $body:block) => || $body
  5. (async, execute, $body:block) => async move $body
  6. (sync,  execute, $body:block) => $body

We embed the invocation as a list of comma-separated macro arguments and the
expansion as Rust syntax (a function item or an expression), and give the
emitted constructs a runtime semantics in which a body is characterised by
the trace of side effects it emits and the value it returns for a given
environment of bound parameters.  Types are kept as opaque strings, values
as naturals, side effects as string labels.
-/
import Mathlib

set_option autoImplicit false

namespace FlexiFunc

/-- A function body block, shallowly embedded by its observable behaviour:
given an environment binding parameter names to values, running the body
emits a trace of side effects and returns a value.  The macro never
inspects the body; it is carried through expansion opaquely. -/
structure Blk where
  run : List (String × Nat) → List String × Nat

/-- One comma-separated argument of an `fb!` invocation, as matched by the
fragment specifiers of the macro: a bare identifier (`$x:ident` or a
literal token), a parenthesised parameter list `($(name : Type),*)`, a
return-type arrow `-> Type` (with `$r:ty`), or a body block
(`$body:block`). -/
inductive Arg where
  | ident (s : String)
  | params (ps : List (String × String))
  | retTy (t : String)
  | block (b : Blk)

/-- A Rust expression as emitted by the body-only rules: a plain block,
an async block `async [move] b`, or a zero-argument closure `[move] || e`.
The `isMove` flags record whether the construct captures its environment
by taking ownership (the `move` keyword) or by reference. -/
inductive RExpr where
  | block (b : Blk)
  | asyncBlock (isMove : Bool) (b : Blk)
  | closure (isMove : Bool) (body : RExpr)

/-- A function item `[async] fn name(p1 : T1, ...) -> R body` as emitted
by the two function rules. -/
structure FnItem where
  isAsync : Bool
  name : String
  params : List (String × String)
  retTy : String
  body : Blk

/-- The result of a successful macro expansion: either a function item or
an expression. -/
inductive Output where
  | item (f : FnItem)
  | expr (e : RExpr)

/-- The `fb!` macro itself: the six rules of the source, tried top to
bottom, first match wins.  An invocation matching none of the six rules is
a compile-time error, embedded as `none`. -/
def fb : List Arg → Option Output
  | [Arg.ident "async", Arg.ident n, Arg.params ps, Arg.retTy r, Arg.block b] =>
      some (Output.item ⟨true, n, ps, r, b⟩)
  | [Arg.ident "sync", Arg.ident n, Arg.params ps, Arg.retTy r, Arg.block b] =>
      some (Output.item ⟨false, n, ps, r, b⟩)
  | [Arg.ident "async", Arg.ident "closure", Arg.block b] =>
      some (Output.expr (RExpr.closure false (RExpr.asyncBlock true b)))
  | [Arg.ident "sync", Arg.ident "closure", Arg.block b] =>
      some (Output.expr (RExpr.closure false (RExpr.block b)))
  | [Arg.ident "async", Arg.ident "execute", Arg.block b] =>
      some (Output.expr (RExpr.asyncBlock true b))
  | [Arg.ident "sync", Arg.ident "execute", Arg.block b] =>
      some (Output.expr (RExpr.block b))
  | _ => none

/-- Runtime values of the emitted constructs: a plain number, a future (a
deferred computation: a body together with the environment it captured,
not yet run), or a closure value (a callable wrapping an expression, not
yet evaluated). -/
inductive RtVal where
  | num (n : Nat)
  | futureV (b : Blk) (env : List (String × Nat))
  | closureV (body : RExpr)

/-- Bind a declared parameter list to positional call arguments: parameter
names in declaration order are zipped with the argument values. -/
def bindParams (ps : List (String × String)) (args : List Nat) :
    List (String × Nat) :=
  (ps.map Prod.fst).zip args

/-- Call a generated function item with positional arguments.  A sync fn
runs its body to completion at once, emitting the trace of the body and
returning its value; an async fn emits no trace and returns a future
capturing the body and the bound arguments. -/
def callFn (f : FnItem) (args : List Nat) : List String × RtVal :=
  if f.isAsync then
    ([], RtVal.futureV f.body (bindParams f.params args))
  else
    let tv := f.body.run (bindParams f.params args)
    (tv.1, RtVal.num tv.2)

/-- Evaluate an emitted expression at its expansion site.  A plain block
runs its body at once; an async block builds a future without running the
body; a closure literal builds a closure value without evaluating its
body. -/
def evalExpr : RExpr → List String × RtVal
  | RExpr.block b =>
      let tv := b.run []
      (tv.1, RtVal.num tv.2)
  | RExpr.asyncBlock _ b => ([], RtVal.futureV b [])
  | RExpr.closure _ body => ([], RtVal.closureV body)

/-- Drive a deferred computation to completion (await): only a future can
be awaited; awaiting it runs the captured body in the captured
environment, yielding its trace and value. -/
def awaitVal : RtVal → Option (List String × Nat)
  | RtVal.futureV b env => some (b.run env)
  | _ => none

/-- Call a runtime value: only a closure value is callable; calling it
evaluates the wrapped expression. -/
def callClosure : RtVal → Option (List String × RtVal)
  | RtVal.closureV body => some (evalExpr body)
  | _ => none

/-- Whether an expansion output is an asynchronous (deferred) construct:
an async function item, an async block, or a closure whose call yields an
async block. -/
def isAsyncOutput : Output → Bool
  | Output.item f => f.isAsync
  | Output.expr (RExpr.asyncBlock _ _) => true
  | Output.expr (RExpr.closure _ (RExpr.asyncBlock _ _)) => true
  | Output.expr _ => false

/-- The invocation has the five-part function shape with mode token `m`:
mode, a function name, a parameter list, a return type, a body. -/
def isFnShape (m : String) (inv : List Arg) : Prop :=
  ∃ n ps r b,
    inv = [Arg.ident m, Arg.ident n, Arg.params ps, Arg.retTy r, Arg.block b]

/-- The invocation has the three-part body-only shape with mode token `m`
and shape token `s` (`closure` or `execute`). -/
def isBodyShape (m s : String) (inv : List Arg) : Prop :=
  ∃ b, inv = [Arg.ident m, Arg.ident s, Arg.block b]

/-- The invocation matches one of the six recognised (mode, shape)
patterns of the macro. -/
def matchesSomeRule (inv : List Arg) : Prop :=
  isFnShape "async" inv ∨ isFnShape "sync" inv ∨
    isBodyShape "async" "closure" inv ∨ isBodyShape "sync" "closure" inv ∨
    isBodyShape "async" "execute" inv ∨ isBodyShape "sync" "execute" inv

/-- Follows the wording of the spec for the (execute, sync) contract:
writing the body directly at the site evaluates the body immediately in
place, yielding its trace and its value with no wrapper. -/
def specDirectBody (b : Blk) : List String × RtVal :=
  ((b.run []).1, RtVal.num (b.run []).2)

/-- A concrete body used by the closed witness theorems: it emits one
side-effect label and returns 1. -/
def bodyOne : Blk := ⟨fun _ => (["effect"], 1)⟩

theorem fb_matches_iff (inv : List Arg) :
    (∃ o, fb inv = some o) ↔ matchesSomeRule inv := by
  constructor
  · rintro ⟨o, h⟩
    unfold fb at h
    split at h
    · exact Or.inl ⟨_, _, _, _, rfl⟩
    · exact Or.inr (Or.inl ⟨_, _, _, _, rfl⟩)
    · exact Or.inr (Or.inr (Or.inl ⟨_, rfl⟩))
    · exact Or.inr (Or.inr (Or.inr (Or.inl ⟨_, rfl⟩)))
    · exact Or.inr (Or.inr (Or.inr (Or.inr (Or.inl ⟨_, rfl⟩))))
    · exact Or.inr (Or.inr (Or.inr (Or.inr (Or.inr ⟨_, rfl⟩))))
    · exact absurd h (by simp)
  · rintro (⟨n, ps, r, b, rfl⟩ | ⟨n, ps, r, b, rfl⟩ | ⟨b, rfl⟩ | ⟨b, rfl⟩ |
      ⟨b, rfl⟩ | ⟨b, rfl⟩)
    · exact ⟨Output.item ⟨true, n, ps, r, b⟩, by simp [fb]⟩
    · exact ⟨Output.item ⟨false, n, ps, r, b⟩, by simp [fb]⟩
    · exact ⟨Output.expr (RExpr.closure false (RExpr.asyncBlock true b)), rfl⟩
    · exact ⟨Output.expr (RExpr.closure false (RExpr.block b)), rfl⟩
    · exact ⟨Output.expr (RExpr.asyncBlock true b), rfl⟩
    · exact ⟨Output.expr (RExpr.block b), rfl⟩

/-- Claim C1: a valid (function, sync) invocation expands to a synchronous
function item with exactly the given name, the parameters in declaration
order, the given return type and the given body; calling the generated
function runs the body to completion in the environment binding the
declared parameters (in order) to the call arguments, emits the trace of
the body and returns the value of the body directly, with no
deferred-computation wrapper. -/
theorem fb_sync_function_spec (n : String) (ps : List (String × String))
    (r : String) (b : Blk) (args : List Nat) :
    fb [Arg.ident "sync", Arg.ident n, Arg.params ps, Arg.retTy r, Arg.block b]
      = some (Output.item ⟨false, n, ps, r, b⟩) ∧
    callFn ⟨false, n, ps, r, b⟩ args
      = ((b.run (bindParams ps args)).1,
          RtVal.num (b.run (bindParams ps args)).2) := by
  exact ⟨by simp [fb], rfl⟩

/-- Claim C2: a valid (function, async) invocation expands to a function
item with the same name, ordered parameter list and return type as the
sync form but marked async; calling it emits no trace (the side effects of
the body do not run at call time) and returns a deferred computation, and
only awaiting that computation runs the body and yields its value. -/
theorem fb_async_function_spec (n : String) (ps : List (String × String))
    (r : String) (b : Blk) (args : List Nat) :
    fb [Arg.ident "async", Arg.ident n, Arg.params ps, Arg.retTy r, Arg.block b]
      = some (Output.item ⟨true, n, ps, r, b⟩) ∧
    callFn ⟨true, n, ps, r, b⟩ args
      = ([], RtVal.futureV b (bindParams ps args)) ∧
    awaitVal (RtVal.futureV b (bindParams ps args))
      = some (b.run (bindParams ps args)) := by
  exact ⟨by simp [fb], rfl, rfl⟩

/-- Claim C3: an invocation matching none of the six recognised
(mode, shape) patterns fails to expand (compile-time error, embedded as
`none`): expansion succeeds exactly on the six patterns, with no seventh
catch-all rule; in particular any invocation whose mode token is neither
the literal `sync` nor the literal `async` fails. -/
theorem fb_unmatched_invocation_fails :
    (∀ inv, fb inv = none ↔ ¬ matchesSomeRule inv) ∧
    (∀ m rest, m ≠ "sync" → m ≠ "async" →
      fb (Arg.ident m :: rest) = none) := by
  have key : ∀ inv, fb inv = none ↔ ¬ matchesSomeRule inv := by
    intro inv
    rw [← fb_matches_iff inv]
    cases h : fb inv <;> simp
  refine ⟨key, fun m rest hs ha => ?_⟩
  rw [key]
  rintro (⟨n, ps, r, b, he⟩ | ⟨n, ps, r, b, he⟩ | ⟨b, he⟩ | ⟨b, he⟩ |
    ⟨b, he⟩ | ⟨b, he⟩) <;> simp_all

/-- Witness for C3 at a concrete input: the mode token `spawn` is neither
recognised literal, so the invocation fails to expand. -/
theorem fb_unmatched_invocation_fails_witness :
    fb [Arg.ident "spawn"] = none :=
  fb_unmatched_invocation_fails.2 "spawn" [] (by decide) (by decide)

/-- Claim C4: a valid (async, closure) invocation expands to a
zero-argument closure value; evaluating the expansion site builds the
closure without running anything, calling the closure emits no trace (the
body does not run) and returns a deferred computation wrapping the body,
and awaiting that computation runs the body and yields its result. -/
theorem fb_async_closure_spec (b : Blk) :
    fb [Arg.ident "async", Arg.ident "closure", Arg.block b]
      = some (Output.expr (RExpr.closure false (RExpr.asyncBlock true b))) ∧
    evalExpr (RExpr.closure false (RExpr.asyncBlock true b))
      = ([], RtVal.closureV (RExpr.asyncBlock true b)) ∧
    callClosure (RtVal.closureV (RExpr.asyncBlock true b))
      = some ([], RtVal.futureV b []) ∧
    awaitVal (RtVal.futureV b []) = some (b.run []) := by
  exact ⟨rfl, rfl, rfl, rfl⟩

/-- Claim C5: a valid (sync, closure) invocation expands to a
zero-argument closure value; evaluating the expansion site builds the
closure without running the body, and each call of the closure runs the
body synchronously at once, emitting its trace and returning its value. -/
theorem fb_sync_closure_spec (b : Blk) :
    fb [Arg.ident "sync", Arg.ident "closure", Arg.block b]
      = some (Output.expr (RExpr.closure false (RExpr.block b))) ∧
    evalExpr (RExpr.closure false (RExpr.block b))
      = ([], RtVal.closureV (RExpr.block b)) ∧
    callClosure (RtVal.closureV (RExpr.block b))
      = some ((b.run []).1, RtVal.num (b.run []).2) := by
  exact ⟨rfl, rfl, rfl⟩

/-- Claim C6: a valid (async, execute) invocation expands to an async
block; the expansion site evaluates to a deferred computation wrapping the
body, constructed in place with no trace emitted (the body has not run),
and awaiting it runs the body and yields its value. -/
theorem fb_async_execute_spec (b : Blk) :
    fb [Arg.ident "async", Arg.ident "execute", Arg.block b]
      = some (Output.expr (RExpr.asyncBlock true b)) ∧
    evalExpr (RExpr.asyncBlock true b) = ([], RtVal.futureV b []) ∧
    awaitVal (RtVal.futureV b []) = some (b.run []) := by
  exact ⟨rfl, rfl, rfl⟩

/-- Claim C7: a valid (sync, execute) invocation expands to exactly the
body itself, with no function or closure wrapper; evaluating the expansion
site coincides with the spec-side description of writing the body directly
in place (same trace, same value, no intervening call). -/
theorem fb_sync_execute_inline (b : Blk) :
    fb [Arg.ident "sync", Arg.ident "execute", Arg.block b]
      = some (Output.expr (RExpr.block b)) ∧
    evalExpr (RExpr.block b) = specDirectBody b := by
  exact ⟨rfl, rfl⟩

/-- Claim C8: whether the expansion is an asynchronous (deferred)
construct is a function of the mode token alone, with no inference from
the body: every successful expansion is async exactly when the mode token
is the literal `async`, and hence any two successful expansions with the
same mode token (in particular, same shape and differing bodies) agree on
asynchronous-ness. -/
theorem fb_asyncness_mode_only :
    (∀ m rest o, fb (Arg.ident m :: rest) = some o →
      isAsyncOutput o = (m == "async")) ∧
    (∀ m rest₁ rest₂ o₁ o₂, fb (Arg.ident m :: rest₁) = some o₁ →
      fb (Arg.ident m :: rest₂) = some o₂ →
      isAsyncOutput o₁ = isAsyncOutput o₂) := by
  have h1 : ∀ m rest o, fb (Arg.ident m :: rest) = some o →
      isAsyncOutput o = (m == "async") := by
    intro m rest o h
    unfold fb at h
    split at h
    all_goals first
      | (rename_i heq; injection h with h; subst h;
          simp only [List.cons.injEq, Arg.ident.injEq] at heq;
          obtain ⟨hm, -⟩ := heq; subst hm; rfl)
      | exact Option.noConfusion h
  exact ⟨h1, fun m r₁ r₂ o₁ o₂ h₁ h₂ =>
    (h1 m r₁ o₁ h₁).trans (h1 m r₂ o₂ h₂).symm⟩

/-- Witness for C8 at concrete inputs: an (async, execute) expansion and
an (async, closure) expansion with different bodies are both async. -/
theorem fb_asyncness_mode_only_witness :
    isAsyncOutput (Output.expr (RExpr.asyncBlock true bodyOne))
        = ("async" == "async") ∧
    isAsyncOutput (Output.expr (RExpr.asyncBlock true bodyOne))
        = isAsyncOutput
            (Output.expr (RExpr.closure false
              (RExpr.asyncBlock true ⟨fun _ => ([], 0)⟩))) :=
  ⟨fb_asyncness_mode_only.1 "async" [Arg.ident "execute", Arg.block bodyOne]
      (Output.expr (RExpr.asyncBlock true bodyOne)) rfl,
    fb_asyncness_mode_only.2 "async"
      [Arg.ident "execute", Arg.block bodyOne]
      [Arg.ident "closure", Arg.block ⟨fun _ => ([], 0)⟩]
      (Output.expr (RExpr.asyncBlock true bodyOne))
      (Output.expr (RExpr.closure false
        (RExpr.asyncBlock true ⟨fun _ => ([], 0)⟩))) rfl rfl⟩

/-- Claim C9: the deferred computations emitted by the (async, closure)
and (async, execute) rules are `move` async blocks (they take ownership of
the variables the body captures), whereas the (sync, closure) rule emits a
non-`move` closure that captures its environment by reference: the
`isMove` flag is `true` on both emitted async blocks and `false` on the
sync closure. -/
theorem fb_capture_mode_asymmetry (b : Blk) :
    fb [Arg.ident "async", Arg.ident "closure", Arg.block b]
      = some (Output.expr (RExpr.closure false (RExpr.asyncBlock true b))) ∧
    fb [Arg.ident "async", Arg.ident "execute", Arg.block b]
      = some (Output.expr (RExpr.asyncBlock true b)) ∧
    fb [Arg.ident "sync", Arg.ident "closure", Arg.block b]
      = some (Output.expr (RExpr.closure false (RExpr.block b))) := by
  exact ⟨rfl, rfl, rfl⟩

/-- Claim C10: in the five-part function shape the tokens `closure` and
`execute` are ordinary function names: the invocation expands to a named
function item called `closure` (resp. `execute`) of the requested mode,
not to a closure form and not to a compile error. -/
theorem fb_special_names_as_function_names (ps : List (String × String))
    (r : String) (b : Blk) :
    fb [Arg.ident "sync", Arg.ident "closure", Arg.params ps, Arg.retTy r,
        Arg.block b]
      = some (Output.item ⟨false, "closure", ps, r, b⟩) ∧
    fb [Arg.ident "sync", Arg.ident "execute", Arg.params ps, Arg.retTy r,
        Arg.block b]
      = some (Output.item ⟨false, "execute", ps, r, b⟩) ∧
    fb [Arg.ident "async", Arg.ident "closure", Arg.params ps, Arg.retTy r,
        Arg.block b]
      = some (Output.item ⟨true, "closure", ps, r, b⟩) ∧
    fb [Arg.ident "async", Arg.ident "execute", Arg.params ps, Arg.retTy r,
        Arg.block b]
      = some (Output.item ⟨true, "execute", ps, r, b⟩) := by
  exact ⟨rfl, rfl, rfl, rfl⟩

end FlexiFunc
